import Mathlib

/-!
Shallow embedding of the initiative-analysis pipeline of `src/app.py`
(repository `juancamilo492/Formulario`).

The embedded fragments are the ones the specification's claims are about:
the mojibake repair table `fix_encoding`, the header resolver built inside
`clean_and_process_data`, the row filter, the numeric coercion
`pd.to_numeric(..., errors='coerce').fillna(0)`, the derived scoring
columns (`Puntuacion_Total`, `Puntuacion_Ponderada`, `Prioridad`,
`Facilidad_Implementacion`), and the ranking display of the `main`
function.  Cells are modelled by `Value` (a missing value, a string, or a
number), tables by `DataFrame` (a header list plus rows of cells), and
Python float arithmetic by exact rationals.
-/

namespace Formulario

/-- A spreadsheet cell: missing (pandas `NaN`), a string, or a number. -/
inductive Value where
  | na : Value
  | str : String → Value
  | num : ℚ → Value
deriving DecidableEq, Repr

/-- A pandas DataFrame: column headers plus rows of cells, row-major. -/
structure DataFrame where
  headers : List String
  rows : List (List Value)
deriving DecidableEq, Repr

/-- A DataFrame is rectangular when every row has one cell per header. -/
abbrev Rect (d : DataFrame) : Prop := ∀ r ∈ d.rows, r.length = d.headers.length

/-- Python's `pat in s` substring test, on character lists. -/
def containsSub (pat : List Char) : List Char → Bool
  | [] => pat.isEmpty
  | c :: cs => pat.isPrefixOf (c :: cs) || containsSub pat cs

/-- Python's `pat in s` substring test, on strings. -/
def pyIn (pat s : String) : Bool := containsSub pat.data s.data

/-- Python's `str.strip()`: drop leading and trailing whitespace. -/
def pyStripList (l : List Char) : List Char :=
  ((l.dropWhile Char.isWhitespace).reverse.dropWhile Char.isWhitespace).reverse

/-- Python's `str.strip()` on strings. -/
def pyStrip (s : String) : String := ⟨pyStripList s.data⟩

/-- Python's `str.replace(pat, rep)` (all non-overlapping occurrences,
left to right), with explicit fuel so the definition is structural; the
fuel is the length of the scanned list, which suffices because each step
consumes at least one character. -/
def replaceAllAux (pat rep : List Char) : ℕ → List Char → List Char
  | _, [] => []
  | 0, s => s
  | fuel + 1, c :: cs =>
    if !pat.isEmpty && pat.isPrefixOf (c :: cs) then
      rep ++ replaceAllAux pat rep fuel (cs.drop (pat.length - 1))
    else
      c :: replaceAllAux pat rep fuel cs

/-- Python's `s.replace(pat, rep)` on character lists. -/
def replaceAll (pat rep s : List Char) : List Char := replaceAllAux pat rep s.length s

/-- Python's `s.replace(pat, rep)` on strings. -/
def pyReplace (s pat rep : String) : String := ⟨replaceAll pat.data rep.data s.data⟩

/-- The `replacements` table of `fix_encoding` (src/app.py lines 112-133),
in Python dict iteration order.  The source dict literal writes the key
`"â€""` twice (once with value en dash, once with em dash);
a Python dict literal keeps the first position and the last value, so the
table has 19 entries and that key maps to the em dash. -/
def replacements : List (String × String) :=
  [("\u00C3\u00A1", "\u00E1"),
   ("\u00C3\u00A9", "\u00E9"),
   ("\u00C3\u00AD", "\u00ED"),
   ("\u00C3\u00B3", "\u00F3"),
   ("\u00C3\u00BA", "\u00FA"),
   ("\u00C3\u00B1", "\u00F1"),
   ("\u00C3\u00C1", "\u00C1"),
   ("\u00C3\u00C9", "\u00C9"),
   ("\u00C3\u00CD", "\u00CD"),
   ("\u00C3\u00D3", "\u00D3"),
   ("\u00C3\u00DA", "\u00DA"),
   ("\u00C3\u00D1", "\u00D1"),
   ("\u00C2\u00BF", "\u00BF"),
   ("\u00C2\u00A1", "\u00A1"),
   ("\u00C2\u00B0", "\u00B0"),
   ("\u00E2\u0153\u2026", "\u2705"),
   ("\u00E2\u20AC\u0153", "\u0022"),
   ("\u00E2\u20AC", "\u0022"),
   ("\u00E2\u20AC\u0022", "\u2014")]

/-- The replacement loop of `fix_encoding` on a non-empty string:
apply every table entry in order with `str.replace`. -/
def fix_encoding_str (s : String) : String :=
  replacements.foldl (fun t pr => pyReplace t pr.1 pr.2) s

/-- Python's `str(x)` as used on cells by `fix_encoding` and by the
row-validity mask.  pandas renders a missing value as `"nan"`; the exact
numeral spelling for numbers is irrelevant to the embedded code, which
only ever asks whether the rendering strips to the empty string. -/
def pyStr : Value → String
  | Value.na => "nan"
  | Value.str s => s
  | Value.num q => toString q

/-- The function `fix_encoding` (src/app.py lines 104-139): missing input
and the empty string are returned unchanged; any other cell is rendered
with `str(...)` and passed through the replacement table. -/
def fix_encoding (v : Value) : Value :=
  match v with
  | Value.na => Value.na
  | Value.str s => if s = "" then Value.str s else Value.str (fix_encoding_str s)
  | Value.num q => Value.str (fix_encoding_str (pyStr (Value.num q)))

/-- Model of `pd.to_numeric(x, errors='coerce')` on the digits of a
decimal literal: value of a digit list read in base 10. -/
def digitsToNat (l : List Char) : ℕ := l.foldl (fun n c => 10 * n + (c.toNat - 48)) 0

/-- Model of `pd.to_numeric(x, errors='coerce')` on an unsigned decimal
literal (optional single decimal point); scientific notation is not
modelled, such strings coerce to `none` like any other non-literal. -/
def parseUnsigned (l : List Char) : Option ℚ :=
  let intPart := l.takeWhile (fun c => c ≠ '.')
  let rest := l.dropWhile (fun c => c ≠ '.')
  if intPart.all Char.isDigit then
    match rest with
    | [] => if intPart.isEmpty then none else some (digitsToNat intPart)
    | _ :: frac =>
      if frac.all Char.isDigit && !(intPart.isEmpty && frac.isEmpty) then
        some ((digitsToNat intPart : ℚ) + (digitsToNat frac : ℚ) / (10 : ℚ) ^ frac.length)
      else none
  else none

/-- Model of `pd.to_numeric(s, errors='coerce')` on a string cell:
strip whitespace, optional sign, decimal literal; `none` is `NaN`. -/
def parseNumeric (s : String) : Option ℚ :=
  match pyStripList s.data with
  | [] => none
  | '-' :: rest => (parseUnsigned rest).map (fun q => -q)
  | '+' :: rest => parseUnsigned rest
  | l => parseUnsigned l

/-- The composite `pd.to_numeric(v, errors='coerce').fillna(0)` applied
to one cell (src/app.py line 355): numbers pass through, missing and
unparseable cells become 0. -/
def toNumericFilled (v : Value) : ℚ :=
  match v with
  | Value.na => 0
  | Value.num q => q
  | Value.str s => (parseNumeric s).getD 0

/-- Numeric reading of an already-coerced cell, as pandas arithmetic on a
numeric column sees it. -/
def valNum : Value → ℚ
  | Value.num q => q
  | _ => 0

/-- The header-mapping chain of `clean_and_process_data` (src/app.py
lines 272-319): `col_clean = col.strip()` followed by the ordered
substring predicates; the first match wins and an unmatched header is
left as it is. -/
def resolveColumn (col : String) : String :=
  let c := pyStrip col
  if pyIn "Marca temporal" c then "Fecha"
  else if pyIn "Nombre completo" c then "Nombre_Colaborador"
  else if pyIn "Correo electr" c then "Correo"
  else if pyIn "Rol o relaci" c then "Rol"
  else if pyIn "rea o proceso" c then "Area"
  else if pyIn "Nombre de la idea" c then "Nombre_Iniciativa"
  else if pyIn "problema, necesidad" c then "Problema"
  else if pyIn "Cu" c && pyIn "l es tu propuesta" c then "Propuesta"
  else if pyIn "proceso/s crees" c then "Proceso_Relacionado"
  else if pyIn "beneficios esperas" c then "Beneficios"
  else if pyIn "idea la has visto" c then "Vista_Otro_Lugar"
  else if pyIn "respuesta anterior" c then "Donde_Como"
  else if pyIn "puede implementarse" c then "Recursos_Actuales"
  else if pyIn "Valor estrat" c then "Valor_Estrategico"
  else if pyIn "Nivel de impacto" c then "Nivel_Impacto"
  else if pyIn "Viabilidad t" c then "Viabilidad_Tecnica"
  else if pyIn "Costo-beneficio" c then "Costo_Beneficio"
  else if pyIn "Innovaci" c && pyIn "disrupci" c then "Innovacion_Disrupcion"
  else if pyIn "Escalabilidad" c && pyIn "transversalidad" c then "Escalabilidad_Transversalidad"
  else if pyIn "Tiempo de implementaci" c then "Tiempo_Implementacion"
  else col

/-- Disjunction of all the substring predicates of `resolveColumn`. -/
def anyColumnPredicate (col : String) : Bool :=
  let c := pyStrip col
  pyIn "Marca temporal" c || pyIn "Nombre completo" c || pyIn "Correo electr" c ||
  pyIn "Rol o relaci" c || pyIn "rea o proceso" c || pyIn "Nombre de la idea" c ||
  pyIn "problema, necesidad" c || (pyIn "Cu" c && pyIn "l es tu propuesta" c) ||
  pyIn "proceso/s crees" c || pyIn "beneficios esperas" c || pyIn "idea la has visto" c ||
  pyIn "respuesta anterior" c || pyIn "puede implementarse" c || pyIn "Valor estrat" c ||
  pyIn "Nivel de impacto" c || pyIn "Viabilidad t" c || pyIn "Costo-beneficio" c ||
  (pyIn "Innovaci" c && pyIn "disrupci" c) ||
  (pyIn "Escalabilidad" c && pyIn "transversalidad" c) || pyIn "Tiempo de implementaci" c

/-- The seven numeric criterion columns (src/app.py lines 325-327). -/
def numeric_columns : List String :=
  ["Valor_Estrategico", "Nivel_Impacto", "Viabilidad_Tecnica",
   "Costo_Beneficio", "Innovacion_Disrupcion",
   "Escalabilidad_Transversalidad", "Tiempo_Implementacion"]

/-- The required canonical columns (src/app.py line 329). -/
def required_columns : List String :=
  ["Nombre_Colaborador", "Nombre_Iniciativa", "Area"] ++ numeric_columns

/-- The free-text columns run through `fix_encoding` (src/app.py line 338). -/
def text_columns : List String :=
  ["Nombre_Colaborador", "Area", "Nombre_Iniciativa", "Problema", "Propuesta",
   "Beneficios", "Proceso_Relacionado"]

/-- All canonical names the resolver can produce. -/
def canonical_names : List String :=
  ["Fecha", "Nombre_Colaborador", "Correo", "Rol", "Area", "Nombre_Iniciativa",
   "Problema", "Propuesta", "Proceso_Relacionado", "Beneficios", "Vista_Otro_Lugar",
   "Donde_Como", "Recursos_Actuales"] ++ numeric_columns

/-- Index of the first column with a given label, pandas label lookup. -/
def colIdx : List String → String → Option ℕ
  | [], _ => none
  | h :: hs, c => if h = c then some 0 else (colIdx hs c).map (fun i => i + 1)

/-- Cell of a row under a column label (missing label or short row reads
as a missing value). -/
def getCell (hs : List String) (r : List Value) (c : String) : Value :=
  match colIdx hs c with
  | some i => r.getD i Value.na
  | none => Value.na

/-- `df[c] = df[c].apply(f)` restricted to one row: rewrite the cell of
column `c` through `f`; no column of that name means no change (the
source guards these updates with `if col in df_clean.columns`). -/
def mapColumnRow (hs : List String) (c : String) (f : Value → Value) (r : List Value) : List Value :=
  match colIdx hs c with
  | some i => r.set i (f (r.getD i Value.na))
  | none => r

/-- Headers after `df[c] = series`: pandas appends the label only when it
is new, otherwise it overwrites the existing column in place. -/
def assignHeaders (hs : List String) (c : String) : List String :=
  match colIdx hs c with
  | some _ => hs
  | none => hs ++ [c]

/-- One row after `df[c] = series`: overwrite the existing cell, or
append the new cell at the end of the row. -/
def assignRow (hs : List String) (c : String) (x : Value) (r : List Value) : List Value :=
  match colIdx hs c with
  | some i => r.set i x
  | none => r ++ [x]

/-- `df[c] = <per-row expression>` on a whole DataFrame. -/
def assignColumn (d : DataFrame) (c : String) (f : List String → List Value → Value) : DataFrame :=
  ⟨assignHeaders d.headers c, d.rows.map (fun r => assignRow d.headers c (f d.headers r) r)⟩

/-- Line 270: `df_clean.columns = [col.strip().rstrip() for col in ...]`
(the extra `rstrip` after `strip` removes nothing further). -/
def stripStage (d : DataFrame) : DataFrame := ⟨d.headers.map pyStrip, d.rows⟩

/-- Line 322: `df_clean.rename(columns=column_mapping)`. -/
def applyMapping (d : DataFrame) : DataFrame := ⟨d.headers.map resolveColumn, d.rows⟩

/-- Lines 270-322 combined: header cleanup followed by the rename. -/
def renameStage (d : DataFrame) : DataFrame := applyMapping (stripStage d)

/-- Line 331: the canonical columns still absent after the rename. -/
def missingColumns (d : DataFrame) : List String :=
  required_columns.filter (fun c => !(d.headers.contains c))

/-- Lines 337-341 restricted to one row: run `fix_encoding` over every
text column. -/
def fixRow (hs : List String) (r : List Value) : List Value :=
  text_columns.foldl (fun r2 c => mapColumnRow hs c fix_encoding r2) r

/-- Lines 337-341: `df[col] = df[col].apply(fix_encoding)` per text column. -/
def fixStage (d : DataFrame) : DataFrame := ⟨d.headers, d.rows.map (fixRow d.headers)⟩

/-- Lines 343-349: the row-validity mask - both name cells present and
non-empty once rendered with `str` and stripped. -/
def validRowB (hs : List String) (r : List Value) : Bool :=
  (match getCell hs r "Nombre_Colaborador" with | Value.na => false | _ => true) &&
  (match getCell hs r "Nombre_Iniciativa" with | Value.na => false | _ => true) &&
  (pyStrip (pyStr (getCell hs r "Nombre_Colaborador")) != "") &&
  (pyStrip (pyStr (getCell hs r "Nombre_Iniciativa")) != "")

/-- Line 350: `df_clean = df_clean[valid_mask].copy()`. -/
def filterStage (d : DataFrame) : DataFrame :=
  ⟨d.headers, d.rows.filter (validRowB d.headers)⟩

/-- Lines 352-355 restricted to one row: numeric coercion of the seven
criterion columns. -/
def coerceRow (hs : List String) (r : List Value) : List Value :=
  numeric_columns.foldl (fun r2 c => mapColumnRow hs c (fun v => Value.num (toNumericFilled v)) r2) r

/-- Lines 352-355: `df[f] = pd.to_numeric(df[f], errors='coerce').fillna(0)`. -/
def coerceStage (d : DataFrame) : DataFrame := ⟨d.headers, d.rows.map (coerceRow d.headers)⟩

/-- Lines 358-363: the unweighted sum of the seven criteria. -/
def totalOf (hs : List String) (r : List Value) : ℚ :=
  valNum (getCell hs r "Valor_Estrategico") + valNum (getCell hs r "Nivel_Impacto") +
  valNum (getCell hs r "Viabilidad_Tecnica") + valNum (getCell hs r "Costo_Beneficio") +
  valNum (getCell hs r "Innovacion_Disrupcion") +
  valNum (getCell hs r "Escalabilidad_Transversalidad") +
  valNum (getCell hs r "Tiempo_Implementacion")

/-- Lines 366-374: the weighted priority score. -/
def ponderadaOf (hs : List String) (r : List Value) : ℚ :=
  valNum (getCell hs r "Valor_Estrategico") * 0.20 +
  valNum (getCell hs r "Nivel_Impacto") * 0.20 +
  valNum (getCell hs r "Viabilidad_Tecnica") * 0.15 +
  valNum (getCell hs r "Costo_Beneficio") * 0.15 +
  valNum (getCell hs r "Innovacion_Disrupcion") * 0.10 +
  valNum (getCell hs r "Escalabilidad_Transversalidad") * 0.10 +
  valNum (getCell hs r "Tiempo_Implementacion") * 0.10

/-- Lines 377-383: `categorizar_prioridad`. -/
def categorizar_prioridad (score : ℚ) : String :=
  if score ≥ 3.5 then "Alta"
  else if score ≥ 2.5 then "Media"
  else "Baja"

/-- Lines 388-391: the ease-of-implementation index. -/
def facilidadOf (hs : List String) (r : List Value) : ℚ :=
  (valNum (getCell hs r "Viabilidad_Tecnica") + valNum (getCell hs r "Costo_Beneficio") +
   valNum (getCell hs r "Tiempo_Implementacion")) / 3

/-- Line 358: `df_clean['Puntuacion_Total'] = ...`. -/
def totalStage (d : DataFrame) : DataFrame :=
  assignColumn d "Puntuacion_Total" (fun hs r => Value.num (totalOf hs r))

/-- Line 366: `df_clean['Puntuacion_Ponderada'] = ...`. -/
def ponderadaStage (d : DataFrame) : DataFrame :=
  assignColumn d "Puntuacion_Ponderada" (fun hs r => Value.num (ponderadaOf hs r))

/-- Line 385: `df_clean['Prioridad'] = df_clean['Puntuacion_Ponderada'].apply(categorizar_prioridad)`. -/
def prioridadStage (d : DataFrame) : DataFrame :=
  assignColumn d "Prioridad"
    (fun hs r => Value.str (categorizar_prioridad (valNum (getCell hs r "Puntuacion_Ponderada"))))

/-- Line 388: `df_clean['Facilidad_Implementacion'] = ...`. -/
def facilidadStage (d : DataFrame) : DataFrame :=
  assignColumn d "Facilidad_Implementacion" (fun hs r => Value.num (facilidadOf hs r))

/-- Lines 357-391: the four derived columns in source order. -/
def deriveStage (d : DataFrame) : DataFrame :=
  facilidadStage (prioridadStage (ponderadaStage (totalStage d)))

/-- The function `clean_and_process_data` (src/app.py lines 261-393) on a
non-`None` DataFrame: rename headers, abort with `None` when required
canonical columns are missing, otherwise repair encodings, drop invalid
rows, coerce the criteria and add the four derived columns. -/
def clean_and_process_data (df : DataFrame) : Option DataFrame :=
  let d1 := renameStage df
  if missingColumns d1 = [] then
    some (deriveStage (coerceStage (filterStage (fixStage d1))))
  else none

/-- The two objects visible inside the body of `clean_and_process_data`:
the caller's argument `df` and the local working copy `df_clean`. -/
structure PyEnv where
  df : DataFrame
  df_clean : DataFrame

/-- Statement-by-statement execution of `clean_and_process_data` over an
explicit two-object store: every assignment of the source body targets
`df_clean`, starting with `df_clean = df.copy()` (line 267); the result
is the returned value together with the final state of the caller's `df`. -/
def clean_run (df : DataFrame) : Option DataFrame × DataFrame :=
  let s0 : PyEnv := ⟨df, df⟩
  let s1 : PyEnv := ⟨s0.df, stripStage s0.df_clean⟩
  let s2 : PyEnv := ⟨s1.df, applyMapping s1.df_clean⟩
  if missingColumns s2.df_clean = [] then
    let s3 : PyEnv := ⟨s2.df, fixStage s2.df_clean⟩
    let s4 : PyEnv := ⟨s3.df, filterStage s3.df_clean⟩
    let s5 : PyEnv := ⟨s4.df, coerceStage s4.df_clean⟩
    let s6 : PyEnv := ⟨s5.df, totalStage s5.df_clean⟩
    let s7 : PyEnv := ⟨s6.df, ponderadaStage s6.df_clean⟩
    let s8 : PyEnv := ⟨s7.df, prioridadStage s7.df_clean⟩
    let s9 : PyEnv := ⟨s8.df, facilidadStage s8.df_clean⟩
    (some s9.df_clean, s9.df)
  else (none, s2.df)

/-- The weighted score a sorted ranking row displays. -/
def ponderadaKey (hs : List String) (r : List Value) : ℚ :=
  valNum (getCell hs r "Puntuacion_Ponderada")

/-- Descending insertion of a row into a list sorted by a score key. -/
def insertDesc (key : List Value → ℚ) (x : List Value) : List (List Value) → List (List Value)
  | [] => [x]
  | y :: ys => if key y < key x then x :: y :: ys else y :: insertDesc key x ys

/-- `df.sort_values(score, ascending=False)` modelled as insertion sort
by the score key, descending. -/
def sortRowsDesc (key : List Value → ℚ) (l : List (List Value)) : List (List Value) :=
  l.foldr (insertDesc key) []

/-- The ranking tab of `main` (src/app.py lines 1004-1026): sort by
`Puntuacion_Ponderada` descending, reset the index, and display rank
`idx + 1` next to each score. -/
def displayedRanking (d : DataFrame) : List (ℕ × ℚ) :=
  ((sortRowsDesc (ponderadaKey d.headers) d.rows).map (ponderadaKey d.headers)).enum.map
    (fun p => (p.1 + 1, p.2))

/-- The end-to-end scenario input: the raw survey headers (with mojibake
headroom, accents and trailing spaces) and the row of Ana Garcia with
criteria (5, 5, 4, 4, 3, 3, 2). -/
def exampleDf : DataFrame :=
  ⟨["Marca temporal", "Nombre completo",
    "Selecciona el \u00E1rea o proceso al cual perteneces ",
    "Nombre de la idea o iniciativa  ", "Valor estrat\u00E9gico", "Nivel de impacto",
    "Viabilidad t\u00E9cnica", "Costo-beneficio", "Innovaci\u00F3n / disrupci\u00F3n ",
    "Escalabilidad / transversalidad ", "Tiempo de implementaci\u00F3n "],
   [[Value.str "2024-01-01", Value.str "Ana Garc\u00EDa", Value.str "IT",
     Value.str "CRM con IA", Value.num 5, Value.num 5, Value.num 4, Value.num 4,
     Value.num 3, Value.num 3, Value.num 2]]⟩

/-- The processed end-to-end scenario table. -/
def exampleOut : DataFrame := (clean_and_process_data exampleDf).getD ⟨[], []⟩

/-- The single surviving row of the end-to-end scenario. -/
def exampleRow : List Value := exampleOut.rows.getD 0 []

/-- A table whose headers are already canonical and whose one valid row
carries a raw out-of-range criterion score of 7. -/
def overRangeDf : DataFrame :=
  ⟨["Nombre_Colaborador", "Nombre_Iniciativa", "Area", "Valor_Estrategico",
    "Nivel_Impacto", "Viabilidad_Tecnica", "Costo_Beneficio", "Innovacion_Disrupcion",
    "Escalabilidad_Transversalidad", "Tiempo_Implementacion"],
   [[Value.str "A", Value.str "B", Value.str "IT", Value.num 7, Value.num 1,
     Value.num 1, Value.num 1, Value.num 1, Value.num 1, Value.num 1]]⟩

/-- The processed out-of-range table. -/
def overRangeOut : DataFrame := (clean_and_process_data overRangeDf).getD ⟨[], []⟩

/-- The surviving row of the out-of-range table. -/
def overRangeRow : List Value := overRangeOut.rows.getD 0 []

/-- A table lacking the canonical `Valor_Estrategico` column but carrying
an otherwise valid row. -/
def missingColDf : DataFrame :=
  ⟨["Nombre_Colaborador", "Nombre_Iniciativa", "Area", "Nivel_Impacto",
    "Viabilidad_Tecnica", "Costo_Beneficio", "Innovacion_Disrupcion",
    "Escalabilidad_Transversalidad", "Tiempo_Implementacion"],
   [[Value.str "A", Value.str "B", Value.str "IT", Value.num 1, Value.num 1,
     Value.num 1, Value.num 1, Value.num 1, Value.num 1]]⟩

/-- A table whose one row has an empty proposer name and a non-empty
initiative name. -/
def emptyNameDf : DataFrame :=
  ⟨["Nombre_Colaborador", "Nombre_Iniciativa", "Area", "Valor_Estrategico",
    "Nivel_Impacto", "Viabilidad_Tecnica", "Costo_Beneficio", "Innovacion_Disrupcion",
    "Escalabilidad_Transversalidad", "Tiempo_Implementacion"],
   [[Value.str "", Value.str "X", Value.str "IT", Value.num 5, Value.num 5,
     Value.num 4, Value.num 4, Value.num 3, Value.num 3, Value.num 2]]⟩

/-- A filtered table with two initiatives of equal weighted score, as the
ranking tab would receive it. -/
def tieDf : DataFrame :=
  ⟨["Nombre_Iniciativa", "Puntuacion_Ponderada"],
   [[Value.str "P", Value.num 3], [Value.str "Q", Value.num 3]]⟩

/-- The cells of one labelled column, in row order. -/
def columnCells (d : DataFrame) (c : String) : List Value :=
  d.rows.map (fun r => getCell d.headers r c)

/-- Numeric height of a priority tier, for stating monotonicity. -/
def tierRank (t : String) : ℕ :=
  if t = "Alta" then 2 else if t = "Media" then 1 else 0

unseal Rat.add Rat.sub Rat.mul Rat.inv Rat.ofScientific

theorem colIdx_lt_length : ∀ {hs : List String} {c : String} {i : ℕ},
    colIdx hs c = some i → i < hs.length := by
  intro hs
  induction hs with
  | nil => intro c i h; simp [colIdx] at h
  | cons a as ih =>
    intro c i h
    simp only [colIdx] at h
    split at h
    · cases h; simp
    · obtain ⟨j, hj, rfl⟩ := Option.map_eq_some'.mp h
      have := ih hj
      simp only [List.length_cons]
      omega

theorem colIdx_inj : ∀ {hs : List String} {c t : String} {i j : ℕ},
    colIdx hs c = some i → colIdx hs t = some j → c ≠ t → i ≠ j := by
  intro hs
  induction hs with
  | nil => intro c t i j hc; simp [colIdx] at hc
  | cons a as ih =>
    intro c t i j hc ht hne
    simp only [colIdx] at hc ht
    by_cases hac : a = c
    · simp only [hac, if_pos rfl] at hc
      cases hc
      have hat : ¬ a = t := fun h => hne (hac ▸ h)
      simp only [if_neg hat] at ht
      obtain ⟨j2, hj2, rfl⟩ := Option.map_eq_some'.mp ht
      omega
    · simp only [if_neg hac] at hc
      obtain ⟨i2, hi2, rfl⟩ := Option.map_eq_some'.mp hc
      by_cases hat : a = t
      · simp only [if_pos hat] at ht
        cases ht
        omega
      · simp only [if_neg hat] at ht
        obtain ⟨j2, hj2, rfl⟩ := Option.map_eq_some'.mp ht
        have := ih hi2 hj2 hne
        omega

theorem colIdx_append_some : ∀ {hs : List String} {c : String} {i : ℕ},
    colIdx hs c = some i → ∀ l : List String, colIdx (hs ++ l) c = some i := by
  intro hs
  induction hs with
  | nil => intro c i h; simp [colIdx] at h
  | cons a as ih =>
    intro c i h l
    simp only [colIdx, List.cons_append] at h ⊢
    split at h
    · cases h; simp_all
    · obtain ⟨j, hj, rfl⟩ := Option.map_eq_some'.mp h
      simp_all [ih hj l]

theorem colIdx_append_none : ∀ {hs : List String} {c : String},
    colIdx hs c = none → colIdx (hs ++ [c]) c = some hs.length := by
  intro hs
  induction hs with
  | nil => intro c _; simp [colIdx]
  | cons a as ih =>
    intro c h
    simp only [colIdx] at h
    split at h
    · cases h
    · simp only [Option.map_eq_none'] at h
      simp only [List.cons_append, colIdx]
      split
      · simp_all
      · simp [ih h]

theorem colIdx_isSome_of_contains : ∀ {hs : List String} {c : String},
    hs.contains c = true → ∃ i, colIdx hs c = some i := by
  intro hs
  induction hs with
  | nil => intro c h; simp [List.contains] at h
  | cons a as ih =>
    intro c h
    by_cases hac : a = c
    · exact ⟨0, by simp [colIdx, hac]⟩
    · have : as.contains c = true := by
        simp only [List.contains_cons] at h
        rcases Bool.or_eq_true_iff.mp h with h1 | h1
        · exact absurd (beq_iff_eq.mp h1).symm hac
        · exact h1
      obtain ⟨i, hi⟩ := ih this
      exact ⟨i + 1, by simp [colIdx, hac, hi]⟩

theorem getD_set_ne : ∀ (l : List Value) (i j : ℕ) (x d : Value), i ≠ j →
    (l.set i x).getD j d = l.getD j d := by
  intro l
  induction l with
  | nil => intro i j x d _; simp
  | cons a as ih =>
    intro i j x d hne
    cases i with
    | zero =>
      cases j with
      | zero => exact absurd rfl hne
      | succ j2 => simp
    | succ i2 =>
      cases j with
      | zero => simp
      | succ j2 =>
        simp only [List.set, List.getD_cons_succ]
        exact ih i2 j2 x d (fun h => hne (by omega))

theorem getD_set_self : ∀ (l : List Value) (i : ℕ) (x d : Value), i < l.length →
    (l.set i x).getD i d = x := by
  intro l
  induction l with
  | nil => intro i x d h; simp at h
  | cons a as ih =>
    intro i x d h
    cases i with
    | zero => simp
    | succ i2 =>
      simp only [List.set, List.getD_cons_succ]
      exact ih i2 x d (by simpa using h)

theorem getD_append_left : ∀ (l l2 : List Value) (i : ℕ) (d : Value), i < l.length →
    ((l ++ l2).getD i d) = l.getD i d := by
  intro l
  induction l with
  | nil => intro l2 i d h; simp at h
  | cons a as ih =>
    intro l2 i d h
    cases i with
    | zero => simp
    | succ i2 =>
      simp only [List.cons_append, List.getD_cons_succ]
      exact ih l2 i2 d (by simpa using h)

theorem getD_append_length : ∀ (l : List Value) (x d : Value),
    ((l ++ [x]).getD l.length d) = x := by
  intro l
  induction l with
  | nil => intro x d; simp
  | cons a as ih => intro x d; simp [ih x d]

theorem length_mapColumnRow (hs : List String) (c : String) (f : Value → Value)
    (r : List Value) : (mapColumnRow hs c f r).length = r.length := by
  unfold mapColumnRow
  split
  · simp
  · rfl

theorem getCell_mapColumnRow_ne (hs : List String) (c t : String) (f : Value → Value)
    (r : List Value) (hne : c ≠ t) :
    getCell hs (mapColumnRow hs t f r) c = getCell hs r c := by
  unfold mapColumnRow getCell
  cases ht : colIdx hs t with
  | none => rfl
  | some j =>
    cases hc : colIdx hs c with
    | none => rfl
    | some i => exact getD_set_ne r j i _ Value.na (Ne.symm (colIdx_inj hc ht hne))

theorem getCell_mapColumnRow_self (hs : List String) (c : String) (f : Value → Value)
    (r : List Value) (i : ℕ) (hc : colIdx hs c = some i) (hlen : i < r.length) :
    getCell hs (mapColumnRow hs c f r) c = f (getCell hs r c) := by
  unfold mapColumnRow getCell
  rw [hc]
  exact getD_set_self r i _ Value.na hlen

theorem length_foldl_mapColumnRow (cols : List String) (hs : List String)
    (f : Value → Value) (r : List Value) :
    (cols.foldl (fun r2 t => mapColumnRow hs t f r2) r).length = r.length := by
  induction cols generalizing r with
  | nil => rfl
  | cons t ts ih =>
    simp only [List.foldl]
    rw [ih, length_mapColumnRow]

theorem getCell_foldl_mapColumnRow_not_mem (cols : List String) (hs : List String)
    (f : Value → Value) (r : List Value) (c : String) (h : c ∉ cols) :
    getCell hs (cols.foldl (fun r2 t => mapColumnRow hs t f r2) r) c = getCell hs r c := by
  induction cols generalizing r with
  | nil => rfl
  | cons t ts ih =>
    simp only [List.foldl]
    rw [ih _ (fun hmem => h (List.mem_cons_of_mem t hmem)),
      getCell_mapColumnRow_ne hs c t f r (fun hct => h (hct ▸ List.mem_cons_self t ts))]

theorem getCell_foldl_mapColumnRow_mem (cols : List String) (hs : List String)
    (f : Value → Value) (r : List Value) (c : String) (hnd : cols.Nodup)
    (hmem : c ∈ cols) (i : ℕ) (hc : colIdx hs c = some i) (hlen : i < r.length) :
    getCell hs (cols.foldl (fun r2 t => mapColumnRow hs t f r2) r) c
      = f (getCell hs r c) := by
  induction cols generalizing r with
  | nil => cases hmem
  | cons t ts ih =>
    simp only [List.foldl]
    rcases List.mem_cons.mp hmem with rfl | hmem2
    · rw [getCell_foldl_mapColumnRow_not_mem ts hs f _ c (List.Nodup.not_mem hnd)]
      exact getCell_mapColumnRow_self hs c f r i hc hlen
    · have hct : c ≠ t := fun h => (List.Nodup.not_mem hnd) (h ▸ hmem2)
      rw [ih _ (List.Nodup.of_cons hnd) hmem2 (by rw [length_mapColumnRow]; exact hlen),
        getCell_mapColumnRow_ne hs c t f r hct]

theorem length_assignRow (hs : List String) (c : String) (x : Value) (r : List Value)
    (hlen : r.length = hs.length) :
    (assignRow hs c x r).length = (assignHeaders hs c).length := by
  unfold assignRow assignHeaders
  cases hc : colIdx hs c with
  | none => simp [hlen]
  | some i => simp [hlen]

theorem length_le_assignHeaders (hs : List String) (c : String) :
    hs.length ≤ (assignHeaders hs c).length := by
  unfold assignHeaders
  cases colIdx hs c with
  | none => simp
  | some i => simp

theorem colIdx_assignHeaders_of_some (hs : List String) (c t : String) (i : ℕ)
    (hc : colIdx hs c = some i) : colIdx (assignHeaders hs t) c = some i := by
  unfold assignHeaders
  cases colIdx hs t with
  | none => exact colIdx_append_some hc [t]
  | some j => exact hc

theorem colIdx_assignHeaders_self (hs : List String) (c : String) :
    ∃ i, colIdx (assignHeaders hs c) c = some i := by
  unfold assignHeaders
  cases hc : colIdx hs c with
  | none => exact ⟨hs.length, colIdx_append_none hc⟩
  | some i => exact ⟨i, hc⟩

theorem getCell_assignRow_ne (hs : List String) (c t : String) (x : Value)
    (r : List Value) (i : ℕ) (hne : c ≠ t) (hc : colIdx hs c = some i)
    (hlen : i < r.length) :
    getCell (assignHeaders hs t) (assignRow hs t x r) c = getCell hs r c := by
  unfold assignHeaders assignRow getCell
  cases ht : colIdx hs t with
  | none =>
    rw [colIdx_append_some hc [t], hc]
    exact getD_append_left r [x] i Value.na hlen
  | some j =>
    rw [hc]
    exact getD_set_ne r j i x Value.na (Ne.symm (colIdx_inj hc ht hne))

theorem getCell_assignRow_self (hs : List String) (c : String) (x : Value)
    (r : List Value) (hlen : r.length = hs.length) :
    getCell (assignHeaders hs c) (assignRow hs c x r) c = x := by
  unfold assignHeaders assignRow getCell
  cases hc : colIdx hs c with
  | none =>
    rw [colIdx_append_none hc]
    rw [← hlen]
    exact getD_append_length r x Value.na
  | some i =>
    rw [hc]
    exact getD_set_self r i x Value.na (hlen ▸ colIdx_lt_length hc)

theorem contains_of_missing_nil {d : DataFrame} (h : missingColumns d = [])
    {c : String} (hc : c ∈ required_columns) : d.headers.contains c = true := by
  unfold missingColumns at h
  rw [List.filter_eq_nil_iff] at h
  have := h c hc
  simp only [Bool.not_eq_true'] at this
  simpa using this

theorem clean_eq_some {df out : DataFrame}
    (h : clean_and_process_data df = some out) :
    missingColumns (renameStage df) = [] ∧
      out = deriveStage (coerceStage (filterStage (fixStage (renameStage df)))) := by
  simp only [clean_and_process_data] at h
  split at h
  · exact ⟨by assumption, (Option.some.inj h).symm⟩
  · cases h

theorem numeric_mem_required {c : String} (hc : c ∈ numeric_columns) :
    c ∈ required_columns :=
  List.mem_append_right _ hc

theorem renameStage_headers_length (df : DataFrame) :
    (renameStage df).headers.length = df.headers.length := by
  simp [renameStage, applyMapping, stripStage]

theorem clean_cells_spec {df out : DataFrame} (hrect : Rect df)
    (h : clean_and_process_data df = some out) :
    ∀ row ∈ out.rows, ∃ r3 ∈ (fixStage (renameStage df)).rows,
      r3.length = (renameStage df).headers.length ∧
      (∀ c ∈ numeric_columns,
        getCell out.headers row c
          = Value.num (toNumericFilled (getCell (renameStage df).headers r3 c))) ∧
      getCell out.headers row "Puntuacion_Ponderada"
        = Value.num (ponderadaOf out.headers row) := by
  obtain ⟨hmiss, hout⟩ := clean_eq_some h
  intro row hrow
  rw [hout] at hrow
  -- peel off the four derived-column maps
  rcases List.mem_map.mp hrow with ⟨row7, hrow7, hfac⟩
  rcases List.mem_map.mp hrow7 with ⟨row6, hrow6, hprio⟩
  rcases List.mem_map.mp hrow6 with ⟨row5, hrow5, hpond⟩
  rcases List.mem_map.mp hrow5 with ⟨r4, hr4, htot⟩
  -- peel off coercion and filtering
  rcases List.mem_map.mp hr4 with ⟨r3, hr3, hcoer⟩
  have hr3mem : r3 ∈ (fixStage (renameStage df)).rows := List.mem_of_mem_filter hr3
  -- row lengths
  have hlen3 : r3.length = (renameStage df).headers.length := by
    rcases List.mem_map.mp hr3mem with ⟨r1, hr1, hfix⟩
    rw [← hfix]
    unfold fixRow
    rw [length_foldl_mapColumnRow, renameStage_headers_length]
    exact hrect r1 hr1
  refine ⟨r3, hr3mem, hlen3, ?_⟩
  set hs := (renameStage df).headers with hhs
  have hlen4 : r4.length = hs.length := by
    rw [← hcoer]; unfold coerceRow; rw [length_foldl_mapColumnRow]; exact hlen3
  -- headers of the intermediate derived stages
  set hs1 := assignHeaders hs "Puntuacion_Total" with hhs1
  set hs2 := assignHeaders hs1 "Puntuacion_Ponderada" with hhs2
  set hs3 := assignHeaders hs2 "Prioridad" with hhs3
  have hout_headers : out.headers = assignHeaders hs3 "Facilidad_Implementacion" := by
    rw [hout]; rfl
  have e1 : (coerceStage (filterStage (fixStage (renameStage df)))).headers = hs := rfl
  have e2 : (totalStage (coerceStage (filterStage (fixStage (renameStage df))))).headers
      = hs1 := rfl
  have e3 : (ponderadaStage (totalStage (coerceStage (filterStage
      (fixStage (renameStage df)))))).headers = hs2 := rfl
  have e4 : (prioridadStage (ponderadaStage (totalStage (coerceStage (filterStage
      (fixStage (renameStage df))))))).headers = hs3 := rfl
  have e0 : (filterStage (fixStage (renameStage df))).headers = hs := rfl
  rw [e0] at hcoer
  rw [e1] at htot
  rw [e2] at hpond
  rw [e3] at hprio
  rw [e4] at hfac
  dsimp only at htot hpond hprio hfac
  have hlen5 : row5.length = hs1.length := by
    rw [← htot]; exact length_assignRow hs _ _ r4 hlen4
  have hlen6 : row6.length = hs2.length := by
    rw [← hpond]; exact length_assignRow hs1 _ _ row5 hlen5
  have hlen7 : row7.length = hs3.length := by
    rw [← hprio]; exact length_assignRow hs2 _ _ row6 hlen6
  -- names of derived columns never collide with criterion columns
  have hnocrit : ∀ c ∈ numeric_columns,
      c ≠ "Puntuacion_Total" ∧ c ≠ "Puntuacion_Ponderada" ∧
      c ≠ "Prioridad" ∧ c ≠ "Facilidad_Implementacion" := by decide
  -- the final cell of every criterion column is its cell in the coerced row
  have hpres : ∀ c ∈ numeric_columns, ∀ i, colIdx hs c = some i →
      getCell out.headers row c = getCell hs r4 c := by
    intro c hc i hidx
    have hne := hnocrit c hc
    have h1 : colIdx hs1 c = some i := colIdx_assignHeaders_of_some _ _ _ _ hidx
    have h2 : colIdx hs2 c = some i := colIdx_assignHeaders_of_some _ _ _ _ h1
    have h3 : colIdx hs3 c = some i := colIdx_assignHeaders_of_some _ _ _ _ h2
    rw [hout_headers, ← hfac,
      getCell_assignRow_ne hs3 c _ _ row7 i hne.2.2.2 h3
        (by rw [hlen7]; exact colIdx_lt_length h3),
      ← hprio,
      getCell_assignRow_ne hs2 c _ _ row6 i hne.2.2.1 h2
        (by rw [hlen6]; exact colIdx_lt_length h2),
      ← hpond,
      getCell_assignRow_ne hs1 c _ _ row5 i hne.2.1 h1
        (by rw [hlen5]; exact colIdx_lt_length h1),
      ← htot,
      getCell_assignRow_ne hs c _ _ r4 i hne.1 hidx
        (by rw [hlen4]; exact colIdx_lt_length hidx)]
  -- every criterion column is present after the rename
  have hidxall : ∀ c ∈ numeric_columns, ∃ i, colIdx hs c = some i := by
    intro c hc
    exact colIdx_isSome_of_contains
      (contains_of_missing_nil hmiss (numeric_mem_required hc))
  constructor
  · -- coerced value of each criterion column
    intro c hc
    obtain ⟨i, hidx⟩ := hidxall c hc
    rw [hpres c hc i hidx, ← hcoer]
    unfold coerceRow
    exact getCell_foldl_mapColumnRow_mem numeric_columns hs _ r3 c (by decide) hc i hidx
      (by rw [hlen3]; exact colIdx_lt_length hidx)
  · -- the weighted-score cell holds the weighted formula of the final row
    obtain ⟨iP, hiP⟩ := colIdx_assignHeaders_self hs1 "Puntuacion_Ponderada"
    have hiP3 : colIdx hs3 "Puntuacion_Ponderada" = some iP :=
      colIdx_assignHeaders_of_some _ _ _ _ hiP
    have hPne : ("Puntuacion_Ponderada" : String) ≠ "Prioridad" ∧
        ("Puntuacion_Ponderada" : String) ≠ "Facilidad_Implementacion" := by decide
    have hcell : getCell out.headers row "Puntuacion_Ponderada"
        = Value.num (ponderadaOf hs1 row5) := by
      rw [hout_headers, ← hfac,
        getCell_assignRow_ne hs3 _ _ _ row7 iP hPne.2 hiP3
          (by rw [hlen7]; exact colIdx_lt_length hiP3),
        ← hprio,
        getCell_assignRow_ne hs2 _ _ _ row6 iP hPne.1 hiP
          (by rw [hlen6]; exact colIdx_lt_length hiP),
        ← hpond, getCell_assignRow_self hs1 _ _ row5 hlen5]
    rw [hcell]
    -- rewrite the weighted formula from the intermediate row to the final row
    have hstep : ∀ c ∈ numeric_columns, getCell hs1 row5 c = getCell out.headers row c := by
      intro c hc
      obtain ⟨i, hidx⟩ := hidxall c hc
      have hne := hnocrit c hc
      rw [hpres c hc i hidx, ← htot,
        getCell_assignRow_ne hs c _ _ r4 i hne.1 hidx
          (by rw [hlen4]; exact colIdx_lt_length hidx)]
    unfold ponderadaOf
    rw [hstep "Valor_Estrategico" (by decide), hstep "Nivel_Impacto" (by decide),
      hstep "Viabilidad_Tecnica" (by decide), hstep "Costo_Beneficio" (by decide),
      hstep "Innovacion_Disrupcion" (by decide),
      hstep "Escalabilidad_Transversalidad" (by decide),
      hstep "Tiempo_Implementacion" (by decide)]

theorem length_insertDesc (key : List Value → ℚ) (x : List Value) :
    ∀ l : List (List Value), (insertDesc key x l).length = l.length + 1 := by
  intro l
  induction l with
  | nil => rfl
  | cons y ys ih =>
    unfold insertDesc
    split
    · simp
    · simp only [List.length_cons, ih]

theorem length_sortRowsDesc (key : List Value → ℚ) (l : List (List Value)) :
    (sortRowsDesc key l).length = l.length := by
  induction l with
  | nil => rfl
  | cons y ys ih =>
    unfold sortRowsDesc at ih ⊢
    simp [List.foldr_cons, length_insertDesc, ih]

theorem chain'_insertDesc (key : List Value → ℚ) (x : List Value) :
    ∀ l : List (List Value), List.Chain' (fun r1 r2 => key r2 ≤ key r1) l →
      List.Chain' (fun r1 r2 => key r2 ≤ key r1) (insertDesc key x l) := by
  intro l
  induction l with
  | nil => intro _; simp [insertDesc]
  | cons y ys ih =>
    intro hch
    unfold insertDesc
    split
    · rename_i hlt
      exact List.Chain'.cons (le_of_lt hlt) hch
    · rename_i hnlt
      have hxy : key x ≤ key y := le_of_not_lt hnlt
      have hch2 := ih (List.Chain'.tail hch)
      cases ys with
      | nil => exact List.Chain'.cons hxy (by simp [insertDesc])
      | cons z zs =>
        have hyz : key z ≤ key y := (List.chain'_cons.mp hch).1
        unfold insertDesc at hch2 ⊢
        split
        · rename_i h2
          rw [if_pos h2] at hch2
          exact List.Chain'.cons hxy hch2
        · rename_i h2
          rw [if_neg h2] at hch2
          exact List.Chain'.cons hyz hch2

theorem chain'_sortRowsDesc (key : List Value → ℚ) (l : List (List Value)) :
    List.Chain' (fun r1 r2 => key r2 ≤ key r1) (sortRowsDesc key l) := by
  induction l with
  | nil => simp [sortRowsDesc]
  | cons y ys ih =>
    unfold sortRowsDesc at ih ⊢
    simp only [List.foldr_cons]
    exact chain'_insertDesc key y _ ih

theorem replaceAllAux_no_occ (pat rep : List Char) (fuel : ℕ) :
    ∀ s : List Char, containsSub pat s = false → replaceAllAux pat rep fuel s = s := by
  induction fuel with
  | zero => intro s _; cases s <;> rfl
  | succ n ih =>
    intro s h
    cases s with
    | nil => rfl
    | cons c cs =>
      simp only [containsSub, Bool.or_eq_false_iff] at h
      simp only [replaceAllAux, h.1, Bool.and_false, Bool.false_eq_true, if_false]
      rw [ih cs h.2]

theorem fix_encoding_str_no_occ (t : String)
    (h : ∀ pr ∈ replacements, pyIn pr.1 t = false) : fix_encoding_str t = t := by
  unfold fix_encoding_str
  suffices hgen : ∀ rs : List (String × String), (∀ pr ∈ rs, pyIn pr.1 t = false) →
      rs.foldl (fun u pr => pyReplace u pr.1 pr.2) t = t by
    exact hgen replacements h
  intro rs
  induction rs with
  | nil => intro _; rfl
  | cons p ps ih =>
    intro hh
    simp only [List.foldl]
    have h1 : pyReplace t p.1 p.2 = t := by
      unfold pyReplace replaceAll
      rw [replaceAllAux_no_occ p.1.data p.2.data _ t.data
        (hh p (List.mem_cons_self p ps))]
    rw [h1]
    exact ih (fun pr hpr => hh pr (List.mem_cons_of_mem p hpr))

/-- C3: the priority tier of `categorizar_prioridad` is the deterministic
step function "Alta" for scores at or above 3.5, "Media" for scores in
[2.5, 3.5), "Baja" below 2.5; its rank is non-decreasing in the score
and both boundary values 2.5 and 3.5 belong to the higher tier. -/
theorem c3_tier_step_monotone :
    (∀ w : ℚ, (3.5 ≤ w → categorizar_prioridad w = "Alta") ∧
      (2.5 ≤ w → w < 3.5 → categorizar_prioridad w = "Media") ∧
      (w < 2.5 → categorizar_prioridad w = "Baja")) ∧
    (∀ w1 w2 : ℚ, w1 ≤ w2 →
      tierRank (categorizar_prioridad w1) ≤ tierRank (categorizar_prioridad w2)) ∧
    categorizar_prioridad 3.5 = "Alta" ∧ categorizar_prioridad 2.5 = "Media" := by
  refine ⟨?_, ?_, by decide, by decide⟩
  · intro w
    refine ⟨fun h => ?_, fun h1 h2 => ?_, fun h => ?_⟩ <;>
      unfold categorizar_prioridad <;> split_ifs <;> first | rfl | linarith
  · intro w1 w2 h
    unfold categorizar_prioridad
    split_ifs <;> first | decide | linarith

/-- C3 witness: the theorem instantiated at the scores 4, 3, 1 and at the
pair 2 ≤ 3. -/
theorem c3_tier_step_monotone_witness :
    categorizar_prioridad 4 = "Alta" ∧ categorizar_prioridad 3 = "Media" ∧
    categorizar_prioridad 1 = "Baja" ∧
    tierRank (categorizar_prioridad 2) ≤ tierRank (categorizar_prioridad 3) :=
  ⟨(c3_tier_step_monotone.1 4).1 (by decide),
   (c3_tier_step_monotone.1 3).2.1 (by decide) (by decide),
   (c3_tier_step_monotone.1 1).2.2 (by decide),
   c3_tier_step_monotone.2.1 2 3 (by decide)⟩

/-- C4 counterexample: on a table whose only missing canonical column is
`Valor_Estrategico` and whose row is otherwise valid, the pipeline does
not substitute a zero column and continue - it returns `None`, failing
the whole load. -/
theorem c4_counterexample : clean_and_process_data missingColDf = none := by decide

/-- C4 (amended): if any required canonical column is still absent after
column resolution, `clean_and_process_data` reports the missing columns
and returns `None`, aborting the whole load, rather than substituting an
all-zero column. -/
theorem c4_missing_aborts : ∀ df : DataFrame,
    (∃ c ∈ required_columns, (renameStage df).headers.contains c = false) →
    clean_and_process_data df = none := by
  intro df h
  obtain ⟨c, hc, hcontains⟩ := h
  simp only [clean_and_process_data]
  split
  · rename_i hmiss
    have := contains_of_missing_nil hmiss hc
    rw [hcontains] at this
    exact Bool.noConfusion this
  · rfl

/-- C4 witness: the amended theorem applied to the concrete table lacking
`Valor_Estrategico`. -/
theorem c4_missing_aborts_witness : clean_and_process_data missingColDf = none :=
  c4_missing_aborts missingColDf ⟨"Valor_Estrategico", by decide, by decide⟩

/-- C5: a row survives cleaning exactly when it passes the validity mask
(proposer and initiative cells present and non-empty after trimming),
applied after the encoding repair; in particular the input whose proposer
name is empty and whose initiative name is "X" yields zero surviving
rows. -/
theorem c5_row_filter :
    (∀ df out, clean_and_process_data df = some out →
      out.rows.length = ((fixStage (renameStage df)).rows.filter
        (validRowB (renameStage df).headers)).length) ∧
    (∃ out, clean_and_process_data emptyNameDf = some out ∧ out.rows = []) := by
  constructor
  · intro df out h
    obtain ⟨hmiss, hout⟩ := clean_eq_some h
    rw [hout]
    simp only [deriveStage, facilidadStage, prioridadStage, ponderadaStage, totalStage,
      assignColumn, coerceStage, List.length_map]
    rfl
  · exact ⟨(clean_and_process_data emptyNameDf).getD ⟨[], []⟩, by decide, by decide⟩

/-- C5 witness: the filter-count equation instantiated at the end-to-end
example table, whose single row is valid. -/
theorem c5_row_filter_witness :
    exampleOut.rows.length = ((fixStage (renameStage exampleDf)).rows.filter
      (validRowB (renameStage exampleDf).headers)).length :=
  c5_row_filter.1 exampleDf exampleOut (by decide)

/-- C6: `fix_encoding` is a pure cell-to-cell function given by the static
replacement table: it repairs "InnovaciÃ³n" to
"Innovación", and returns the empty string and a missing (NaN) cell
unchanged. -/
theorem c6_fix_encoding :
    fix_encoding (Value.str "InnovaciÃ³n") = Value.str "Innovación" ∧
    fix_encoding (Value.str "") = Value.str "" ∧
    fix_encoding Value.na = Value.na := by decide

/-- C9 counterexample: the replacement pass is not idempotent - on the
input "ÂÂ¿" one pass yields "Â¿" (the
replacement re-creates the pattern it just consumed against the leftover
"Â"), and a second pass changes the string again. -/
theorem c9_counterexample :
    fix_encoding_str (fix_encoding_str "ÂÂ¿")
      ≠ fix_encoding_str "ÂÂ¿" := by decide

/-- C9 (amended): the replacement table is not conflict-free - a rewrite
can re-create a pattern against adjacent leftover text, so `fix_encoding`
is not idempotent in general; it is idempotent exactly on the inputs
whose output contains no occurrence of any table pattern. -/
theorem c9_idempotent_when_clean : ∀ s : String,
    (∀ pr ∈ replacements, pyIn pr.1 (fix_encoding_str s) = false) →
    fix_encoding_str (fix_encoding_str s) = fix_encoding_str s :=
  fun _ h => fix_encoding_str_no_occ _ h

/-- C9 witness: the amended theorem applied to "hola", whose image
contains no table pattern. -/
theorem c9_idempotent_when_clean_witness :
    fix_encoding_str (fix_encoding_str "hola") = fix_encoding_str "hola" :=
  c9_idempotent_when_clean "hola" (by decide)

/-- C10: `clean_and_process_data` never mutates its argument - executed
statement by statement over the two-object store, every assignment
targets the working copy `df_clean`, so the caller's `df` is unchanged
when the function returns, and the returned value is the one the pure
pipeline computes. -/
theorem c10_no_mutation : ∀ df : DataFrame,
    (clean_run df).2 = df ∧ (clean_run df).1 = clean_and_process_data df := by
  intro df
  by_cases hm : missingColumns (applyMapping (stripStage df)) = [] <;>
    simp [clean_run, clean_and_process_data, renameStage, deriveStage, hm]

/-- C1 counterexample: the pipeline performs no clamping - on a table
whose surviving row carries a raw criterion score of 7, the processed
`Valor_Estrategico` cell is still 7, outside [0, 5]. -/
theorem c1_counterexample :
    clean_and_process_data overRangeDf = some overRangeOut ∧
    overRangeOut.rows = [overRangeRow] ∧
    getCell overRangeOut.headers overRangeRow "Valor_Estrategico" = Value.num 7 ∧
    ¬ ((7 : ℚ) ≤ 5) := by decide

/-- C1 (amended): after `clean_and_process_data`, every one of the seven
numeric criterion cells of every surviving row equals the
coerce-and-fill-zero reading of some raw cell of that criterion column
(missing and unparseable values coerce to 0); no clamping to [0, 5] is
applied, so the processed value is in range exactly when the coerced raw
cell is. -/
theorem c1_criteria_coerced : ∀ df out, Rect df →
    clean_and_process_data df = some out →
    ∀ row ∈ out.rows, ∀ c ∈ numeric_columns,
      ∃ v ∈ columnCells (renameStage df) c,
        getCell out.headers row c = Value.num (toNumericFilled v) := by
  intro df out hrect h row hrow c hc
  obtain ⟨r3, hr3, hlen3, hcrit, _⟩ := clean_cells_spec hrect h row hrow
  rcases List.mem_map.mp hr3 with ⟨r1, hr1, hfix⟩
  have hnotext : ∀ x ∈ numeric_columns, x ∉ text_columns := by decide
  have hsame : getCell (renameStage df).headers r3 c
      = getCell (renameStage df).headers r1 c := by
    rw [← hfix]
    unfold fixRow
    exact getCell_foldl_mapColumnRow_not_mem _ _ _ _ _ (hnotext c hc)
  refine ⟨getCell (renameStage df).headers r1 c, ?_, ?_⟩
  · exact List.mem_map_of_mem _ hr1
  · rw [hcrit c hc, hsame]

/-- C1 witness: the amended theorem applied to the out-of-range table and
its surviving row, at the column `Valor_Estrategico`. -/
theorem c1_criteria_coerced_witness :
    ∃ v ∈ columnCells (renameStage overRangeDf) "Valor_Estrategico",
      getCell overRangeOut.headers overRangeRow "Valor_Estrategico"
        = Value.num (toNumericFilled v) :=
  c1_criteria_coerced overRangeDf overRangeOut (by decide) (by decide)
    overRangeRow (by decide) "Valor_Estrategico" (by decide)

/-- C2: for every surviving row the `Puntuacion_Ponderada` cell holds the
weighted combination 0.20, 0.20, 0.15, 0.15, 0.10, 0.10, 0.10 of the
row's seven criterion cells (the formula `ponderadaOf`); in particular
the end-to-end row with criteria (5, 5, 4, 4, 3, 3, 2) scores exactly 4
and its tier is "Alta". -/
theorem c2_weighted_formula :
    (∀ df out, Rect df → clean_and_process_data df = some out →
      ∀ row ∈ out.rows,
        getCell out.headers row "Puntuacion_Ponderada"
          = Value.num (ponderadaOf out.headers row)) ∧
    clean_and_process_data exampleDf = some exampleOut ∧
    exampleOut.rows = [exampleRow] ∧
    getCell exampleOut.headers exampleRow "Puntuacion_Ponderada" = Value.num 4 ∧
    getCell exampleOut.headers exampleRow "Prioridad" = Value.str "Alta" := by
  refine ⟨?_, by decide, by decide, by decide, by decide⟩
  intro df out hrect h row hrow
  obtain ⟨_, _, _, _, hpond⟩ := clean_cells_spec hrect h row hrow
  exact hpond

/-- C2 witness: the general formula instantiated at the end-to-end
example table and its single surviving row. -/
theorem c2_weighted_formula_witness :
    getCell exampleOut.headers exampleRow "Puntuacion_Ponderada"
      = Value.num (ponderadaOf exampleOut.headers exampleRow) :=
  c2_weighted_formula.1 exampleDf exampleOut (by decide) (by decide)
    exampleRow (by decide)

/-- C7 counterexample: two initiatives with the same weighted score 3 are
displayed with the distinct rank numbers 1 and 2 - the shown ranking is
positional, not a dense rank. -/
theorem c7_counterexample :
    displayedRanking tieDf = [(1, 3), (2, 3)] ∧ (1 : ℕ) ≠ 2 := by decide

/-- C7 (amended): the displayed ranking is the 1-based position in the
table sorted by weighted score descending: the rank numbers are always
1, 2, ..., n even across ties, and the displayed scores are
non-increasing. -/
theorem c7_positional_ranking : ∀ d : DataFrame,
    (displayedRanking d).map Prod.fst = List.range' 1 d.rows.length ∧
    List.Chain' (fun a b => b ≤ a) ((displayedRanking d).map Prod.snd) := by
  intro d
  constructor
  · unfold displayedRanking
    rw [List.map_map]
    have h1 : (Prod.fst ∘ fun p : ℕ × ℚ => (p.1 + 1, p.2)) = (fun i => 1 + i) ∘ Prod.fst := by
      funext p
      simp [Nat.add_comm]
    rw [h1, ← List.map_map, List.enum_map_fst, List.length_map,
      length_sortRowsDesc, List.range_eq_range', List.map_add_range']
  · unfold displayedRanking
    rw [List.map_map]
    have h2 : (Prod.snd ∘ fun p : ℕ × ℚ => (p.1 + 1, p.2)) = Prod.snd := by
      funext p
      rfl
    rw [h2, List.enum_map_snd]
    exact (List.chain'_map _).mpr (chain'_sortRowsDesc _ _)

/-- C8: column resolution is idempotent and non-invasive - every
canonical name resolves to itself (so an already-canonical header set is
returned unchanged, rows untouched), any header matching no predicate
passes through unchanged, and the rename never alters the row data. -/
theorem c8_resolver_idempotent :
    (∀ c ∈ canonical_names, resolveColumn (pyStrip c) = c) ∧
    (∀ d : DataFrame, d.headers = canonical_names → renameStage d = d) ∧
    (∀ h : String, anyColumnPredicate h = false → resolveColumn h = h) ∧
    (∀ d : DataFrame, (renameStage d).rows = d.rows) := by
  refine ⟨by decide, ?_, ?_, fun d => rfl⟩
  · intro d hd
    obtain ⟨headers, rows⟩ := d
    simp only at hd
    subst hd
    simp only [renameStage, applyMapping, stripStage, DataFrame.mk.injEq]
    exact ⟨by decide, trivial⟩
  · intro col h
    simp only [anyColumnPredicate, Bool.or_eq_false_iff, and_assoc] at h
    obtain ⟨g1, g2, g3, g4, g5, g6, g7, g8, g9, g10, g11, g12, g13, g14, g15, g16,
      g17, g18, g19, g20⟩ := h
    unfold resolveColumn
    dsimp only
    rw [g1, g2, g3, g4, g5, g6, g7, g8, g9, g10, g11, g12, g13, g14, g15, g16,
      g17, g18, g19, g20]
    simp only [Bool.false_eq_true, if_false]

/-- C8 witness: the resolver applied to the canonical name "Fecha", to a
fully canonical table, and to the unmatched header "Foo". -/
theorem c8_resolver_idempotent_witness :
    resolveColumn (pyStrip "Fecha") = "Fecha" ∧
    renameStage ⟨canonical_names, []⟩ = ⟨canonical_names, []⟩ ∧
    resolveColumn "Foo" = "Foo" :=
  ⟨c8_resolver_idempotent.1 "Fecha" (by decide),
   c8_resolver_idempotent.2.1 ⟨canonical_names, []⟩ rfl,
   c8_resolver_idempotent.2.2.1 "Foo" (by decide)⟩

end Formulario
